import Mathlib

/-!
Shallow embedding of the SpectroViewer region interaction engine
(src/layers/RegionsLayer.ts) and the scroll follower (src/core/ScrollManager.ts).

JavaScript numbers are modelled as exact rationals; the DOM is abstracted
away: a region's visual element, handles and content are omitted (they carry
no time/selection state), and pointer events are modelled by the payload the
handlers actually read (client x already normalized to scroll-content space,
and a classification of the hit target).  Event emission is modelled by each
operation returning the list of notifications it emits, in order.
-/

namespace SpectroViewer

/-- A region (RegionInternal minus its DOM fields).  The source field
named end is called endTime here because end is a Lean keyword. -/
structure Region where
  id : String
  start : ℚ
  endTime : ℚ
  color : String
  selectedColor : String
  draggable : Bool
  resizable : Bool
  minLength : ℚ
  selected : Bool
deriving Repr, DecidableEq

/-- RegionOptions as consumed by addRegion: id, start, end required,
styling and behaviour fields optional (config defaults fill the gaps). -/
structure RegionOptions where
  id : String
  start : ℚ
  endTime : ℚ
  color : Option String := none
  selectedColor : Option String := none
  draggable : Option Bool := none
  resizable : Option Bool := none
  minLength : Option ℚ := none
deriving Repr, DecidableEq

/-- The Partial RegionOptions accepted by updateRegion: every field optional.
The opaque data and content payloads are omitted (not interpreted by the core). -/
structure RegionUpdate where
  start : Option ℚ := none
  endTime : Option ℚ := none
  color : Option String := none
  selectedColor : Option String := none
  draggable : Option Bool := none
  resizable : Option Bool := none
deriving Repr, DecidableEq

/-- The resolved per-layer configuration (constructor lines 52-59). -/
structure RegionsConfig where
  color : String
  selectedColor : String
  draggable : Bool
  resizable : Bool
  minLength : ℚ
  dragSelectionColor : String
deriving Repr, DecidableEq

/-- Drag gesture kinds (dragState.type). -/
inductive DragType where
  | move
  | resizeLeft
  | resizeRight
  | create
deriving Repr, DecidableEq

/-- The transient drag state; the source holds a live object reference in
region, modelled here by the region's id (the store entry is that object). -/
structure DragState where
  type : DragType
  regionId : Option String
  startX : ℚ
  origStart : ℚ
  origEnd : ℚ
deriving Repr, DecidableEq

/-- The notification stream of RegionsLayer (RegionEvents). -/
inductive REvent where
  | created (r : Region)
  | updated (r : Region)
  | removed (r : Region)
  | clicked (r : Region)
  | selected (r : Option Region)
  | dragStart (r : Region)
  | dragEnd (r : Region)
deriving Repr, DecidableEq

def REvent.isCreated : REvent → Bool
  | .created _ => true
  | _ => false

/-- The mutable state of a RegionsLayer instance.  The JS Map preserves
insertion order, modelled as a list with pairwise distinct ids. -/
structure RegionsState where
  regions : List Region
  selectedId : Option String
  dragState : Option DragState
  config : RegionsConfig
  pxPerSec : ℚ
deriving Repr, DecidableEq

/-- Point update of the region object with a given id; JS mutates the object
in place, so every holder of the reference sees the new value.  Recursive
form of mapping entry-wise, applying f exactly to the entries with that id. -/
def updRegions : List Region → String → (Region → Region) → List Region
  | [], _, _ => []
  | a :: t, rid, f => (if a.id == rid then f a else a) :: updRegions t rid f

def findRegion (l : List Region) (rid : String) : Option Region :=
  l.find? (fun q => q.id == rid)

/-- removeRegion (lines 335-345): no-op when absent; removes the entry,
clears and notifies the selection when the removed region was selected,
then emits removed. -/
def removeRegion (rid : String) (s : RegionsState) : RegionsState × List REvent :=
  match findRegion s.regions rid with
  | none => (s, [])
  | some r =>
    let regions := s.regions.filter (fun q => !(q.id == rid))
    if s.selectedId = some rid then
      ({ s with regions := regions, selectedId := none },
       [REvent.selected none, REvent.removed r])
    else
      ({ s with regions := regions }, [REvent.removed r])

/-- clearRegions (lines 347-353): drops every region and the selection,
emitting nothing. -/
def clearRegions (s : RegionsState) : RegionsState × List REvent :=
  ({ s with regions := [], selectedId := none }, [])

/-- Field-by-field merge performed by updateRegion (lines 358-364):
each provided field is assigned verbatim, nothing is clamped. -/
def applyUpdate (opts : RegionUpdate) (r : Region) : Region :=
  { r with
    start := opts.start.getD r.start
    endTime := opts.endTime.getD r.endTime
    color := opts.color.getD r.color
    selectedColor := opts.selectedColor.getD r.selectedColor
    draggable := opts.draggable.getD r.draggable
    resizable := opts.resizable.getD r.resizable }

/-- updateRegion (lines 355-367): no-op when the id is absent; otherwise
merges the provided fields in place and re-renders.  Emits nothing. -/
def updateRegion (rid : String) (opts : RegionUpdate) (s : RegionsState) :
    RegionsState × List REvent :=
  match findRegion s.regions rid with
  | none => (s, [])
  | some _ =>
    ({ s with regions := updRegions s.regions rid (applyUpdate opts) }, [])

/-- The deselect phase of selectRegion (lines 397-403): clears the selected
flag of the current holder, when there is one and it is still stored. -/
def deselectPrev (s : RegionsState) : RegionsState :=
  match s.selectedId with
  | none => s
  | some pid =>
    { s with regions := updRegions s.regions pid (fun r => { r with selected := false }) }

/-- selectRegion (lines 396-417): deselect phase, record the new id, then
select and notify.  Always emits exactly one selected notification; its
payload is the newly selected region, or none when deselecting or when the
requested id is not stored. -/
def selectRegion (oid : Option String) (s : RegionsState) : RegionsState × List REvent :=
  let s1 := deselectPrev s
  let s2 := { s1 with selectedId := oid }
  match oid with
  | some i =>
    match findRegion s2.regions i with
    | some r =>
      let r' := { r with selected := true }
      ({ s2 with regions := updRegions s2.regions i (fun q => { q with selected := true }) },
       [REvent.selected (some r')])
    | none => (s2, [REvent.selected none])
  | none => (s2, [REvent.selected none])

/-- Region construction in addRegion (lines 96-111): options merged with the
config defaults, selected initialised to false. -/
def mkRegion (cfg : RegionsConfig) (opts : RegionOptions) : Region :=
  { id := opts.id
    start := opts.start
    endTime := opts.endTime
    color := opts.color.getD cfg.color
    selectedColor := opts.selectedColor.getD cfg.selectedColor
    draggable := opts.draggable.getD cfg.draggable
    resizable := opts.resizable.getD cfg.resizable
    minLength := opts.minLength.getD cfg.minLength
    selected := false }

/-- addRegion (lines 67-120): an existing id is removed first (with that
removal's notifications); the new region is appended.  addRegion itself
emits nothing, in particular never created. -/
def addRegion (opts : RegionOptions) (s : RegionsState) :
    RegionsState × Region × List REvent :=
  let pr :=
    if s.regions.any (fun r => r.id == opts.id) then removeRegion opts.id s else (s, [])
  let region := mkRegion pr.1.config opts
  ({ pr.1 with regions := pr.1.regions ++ [region] }, region, pr.2)

/-- Hit classification of a pointer-down inside the region element: one of
the two resize handles, or the region body. -/
inductive HitTarget where
  | handleLeft
  | handleRight
  | body
deriving Repr, DecidableEq

/-- The region element's pointerdown handler (bindRegionEvents, lines
169-189) for a primary-button press, with startX already normalized to
scroll-content space.  Note there is no guard on an already active drag:
the assignment overwrites this.dragState, and the trailing check emits
drag-start whenever dragState is non-null afterwards. -/
def pointerDown (rid : String) (target : HitTarget) (startX : ℚ) (s : RegionsState) :
    RegionsState × List REvent :=
  match findRegion s.regions rid with
  | none => (s, [])
  | some r =>
    let ds : Option DragState :=
      if r.resizable = true ∧ target = HitTarget.handleLeft then
        some { type := DragType.resizeLeft, regionId := some r.id, startX := startX,
               origStart := r.start, origEnd := r.endTime }
      else if r.resizable = true ∧ target = HitTarget.handleRight then
        some { type := DragType.resizeRight, regionId := some r.id, startX := startX,
               origStart := r.start, origEnd := r.endTime }
      else if r.draggable = true then
        some { type := DragType.move, regionId := some r.id, startX := startX,
               origStart := r.start, origEnd := r.endTime }
      else
        s.dragState
    let s' := { s with dragState := ds }
    if ds.isSome then (s', [REvent.dragStart r]) else (s', [])

/-- Move update of onPointerMove (lines 216-221). -/
def moveUpdate (origStart origEnd deltaTime duration : ℚ) : ℚ × ℚ :=
  let len := origEnd - origStart
  let newStart := max 0 (min (duration - len) (origStart + deltaTime))
  (newStart, newStart + len)

/-- Resize-left update (line 223). -/
def resizeLeftUpdate (origStart deltaTime endTime minLen : ℚ) : ℚ :=
  max 0 (min (endTime - minLen) (origStart + deltaTime))

/-- Resize-right update (line 225). -/
def resizeRightUpdate (origEnd deltaTime start minLen duration : ℚ) : ℚ :=
  min duration (max (start + minLen) (origEnd + deltaTime))

/-- The per-kind bound update applied to the drag region on pointer-move
(lines 216-226); minLen is the region's own minLength (line 207). -/
def movedRegion (ds : DragState) (r : Region) (deltaTime duration : ℚ) : Region :=
  if ds.type = DragType.move then
    let p := moveUpdate ds.origStart ds.origEnd deltaTime duration
    { r with start := p.1, endTime := p.2 }
  else if ds.type = DragType.resizeLeft then
    { r with start := resizeLeftUpdate ds.origStart deltaTime r.endTime r.minLength }
  else
    { r with endTime := resizeRightUpdate ds.origEnd deltaTime r.start r.minLength duration }

/-- The document pointermove handler (lines 199-229), with currentX already
normalized to scroll-content space and the current duration passed in.  A
create-type drag returns early (handled by the drag-selection closures); the
drag region's bounds are updated in place per the gesture kind. -/
def onPointerMove (currentX duration : ℚ) (s : RegionsState) : RegionsState :=
  match s.dragState with
  | none => s
  | some ds =>
    if ds.type = DragType.create then s
    else
      match ds.regionId.bind (fun rid => findRegion s.regions rid) with
      | none => s
      | some r =>
        let deltaTime := (currentX - ds.startX) / s.pxPerSec
        { s with
          regions := updRegions s.regions r.id (fun _ => movedRegion ds r deltaTime duration) }

/-- The document pointerup handler (lines 231-241): clears the drag state
and, when a drag region exists, emits drag-end then updated with it,
whether or not any pointer-move changed the bounds. -/
def onPointerUp (s : RegionsState) : RegionsState × List REvent :=
  match s.dragState with
  | none => (s, [])
  | some ds =>
    let s' := { s with dragState := none }
    match ds.regionId.bind (fun rid => findRegion s'.regions rid) with
    | none => (s', [])
    | some r => (s', [REvent.dragEnd r, REvent.updated r])

/-- The region element's click handler (lines 191-196): ignored while a drag
state is active (it has already been cleared by pointerup when the click of
a plain click arrives); otherwise selects the region and emits clicked. -/
def clickOnRegion (rid : String) (s : RegionsState) : RegionsState × List REvent :=
  if s.dragState.isSome then (s, [])
  else
    let pr := selectRegion (some rid) s
    match findRegion pr.1.regions rid with
    | some r => (pr.1, pr.2 ++ [REvent.clicked r])
    | none => pr

/-- The full event sequence of a plain click on a region: pointerdown, then
the document pointerup, then the element click, with no pointermove between. -/
def plainClick (rid : String) (target : HitTarget) (x : ℚ) (s : RegionsState) :
    RegionsState × List REvent :=
  let p1 := pointerDown rid target x s
  let p2 := onPointerUp p1.1
  let p3 := clickOnRegion rid p2.1
  (p3.1, p1.2 ++ p2.2 ++ p3.2)

/-- The drag-selection pointerup closure (onDragSelectionStart's onUp, lines
293-319): clamps the anchor/current times to the track, and when the span
reaches the configured minLength commits a new region through addRegion and
emits created; otherwise only the preview is discarded.  The generated id is
passed in as freshId. -/
def dragSelectionUp (anchorTime endTimeRaw duration : ℚ) (freshId : String)
    (s : RegionsState) : RegionsState × List REvent :=
  let start := max 0 (min anchorTime endTimeRaw)
  let stop := min duration (max anchorTime endTimeRaw)
  if s.config.minLength ≤ stop - start then
    let pr := addRegion
      { id := freshId, start := start, endTime := stop,
        color := some s.config.color,
        draggable := some s.config.draggable,
        resizable := some s.config.resizable } s
    (pr.1, pr.2.2 ++ [REvent.created pr.2.1])
  else (s, [])

/-- updateZoom (lines 423-428): re-renders only; time bounds untouched. -/
def updateZoom (px : ℚ) (s : RegionsState) : RegionsState :=
  { s with pxPerSec := px }

/-! ### ScrollManager (src/core/ScrollManager.ts) -/

/-- The mutable state of a ScrollManager together with the viewport fields it
reads (scrollLeft, clientWidth).  The 600 ms user-scroll timer is modelled by
the isUserScrolling flag plus an explicit timer-expiry event. -/
structure ScrollState where
  autoScroll : Bool
  autoCenter : Bool
  isUserScrolling : Bool
  isProgrammaticScroll : Bool
  lerpTarget : Option ℚ
  scrollLeft : ℚ
  clientWidth : ℚ
deriving Repr, DecidableEq

/-- setScrollLeft (lines 73-76): programmatic scroll, flagged so the next
scroll event does not count as a user scroll. -/
def setScrollLeft (v : ℚ) (s : ScrollState) : ScrollState :=
  { s with isProgrammaticScroll := true, scrollLeft := v }

/-- followCursor (lines 40-68). -/
def followCursor (cursorX : ℚ) (isPlaying : Bool) (s : ScrollState) : ScrollState :=
  if isPlaying = false ∨ s.isUserScrolling = true then
    { s with lerpTarget := none }
  else
    let vw := s.clientWidth
    if s.autoCenter = true then
      let target := cursorX - vw / 2
      let s1 := { s with lerpTarget := some target }
      let current := s1.scrollLeft
      let diff := target - current
      if |diff| < 1/2 then s1
      else setScrollLeft (current + diff * (12/100)) s1
    else if s.autoScroll = true then
      let sl := s.scrollLeft
      let rightEdge := sl + vw
      let margin := vw * (1/10)
      if cursorX > rightEdge - margin ∨ cursorX < sl then
        setScrollLeft (cursorX - margin) s
      else s
    else s

/-- The scroll event handler onUserScroll (lines 91-103), combined with the
scroll itself moving scrollLeft to newScrollLeft.  A programmatic scroll
consumes the one-shot flag; any other scroll is user-initiated and starts
(or restarts) the 600 ms cooldown, modelled by isUserScrolling := true. -/
def onUserScroll (newScrollLeft : ℚ) (s : ScrollState) : ScrollState :=
  if s.isProgrammaticScroll = true then
    { s with isProgrammaticScroll := false, scrollLeft := newScrollLeft }
  else
    { s with isUserScrolling := true, lerpTarget := none, scrollLeft := newScrollLeft }

/-- Expiry of the 600 ms user-scroll timer (lines 100-102). -/
def timerFire (s : ScrollState) : ScrollState :=
  { s with isUserScrolling := false }

/-- The events a ScrollManager reacts to. -/
inductive ScrollEvent where
  | follow (cursorX : ℚ) (isPlaying : Bool)
  | userScroll (newScrollLeft : ℚ)
  | timer
deriving Repr, DecidableEq

def scrollStep (e : ScrollEvent) (s : ScrollState) : ScrollState :=
  match e with
  | .follow x p => followCursor x p s
  | .userScroll v => onUserScroll v s
  | .timer => timerFire s

def runScroll (evts : List ScrollEvent) (s : ScrollState) : ScrollState :=
  evts.foldl (fun st e => scrollStep e st) s

/-- Iterated followCursor calls (one per animation frame) with a fixed
cursor position during playback. -/
def iterFC (cursorX : ℚ) : ℕ → ScrollState → ScrollState
  | 0, s => s
  | n + 1, s => iterFC cursorX n (followCursor cursorX true s)

/-! ### Store invariants and reachable states -/

/-- The JS Map keys are unique: region ids are pairwise distinct. -/
def UniqueIds (l : List Region) : Prop := (l.map Region.id).Nodup

/-- Internal coherence of the selection: any region whose selected flag is
set is the one recorded in selectedId. -/
def SelCoherent (s : RegionsState) : Prop :=
  ∀ r ∈ s.regions, r.selected = true → s.selectedId = some r.id

def Inv (s : RegionsState) : Prop := UniqueIds s.regions ∧ SelCoherent s

/-- At most one stored region has its selected flag set. -/
def atMostOneSelected (s : RegionsState) : Prop :=
  s.regions.countP (fun r => r.selected) ≤ 1

/-- States reachable from a fresh layer through the public operations and
the pointer handlers. -/
inductive Reachable : RegionsState → Prop where
  | init (cfg : RegionsConfig) (px : ℚ) :
      Reachable { regions := [], selectedId := none, dragState := none,
                  config := cfg, pxPerSec := px }
  | add {s} (opts : RegionOptions) : Reachable s → Reachable (addRegion opts s).1
  | remove {s} (rid : String) : Reachable s → Reachable (removeRegion rid s).1
  | clear {s} : Reachable s → Reachable (clearRegions s).1
  | update {s} (rid : String) (opts : RegionUpdate) :
      Reachable s → Reachable (updateRegion rid opts s).1
  | select {s} (oid : Option String) : Reachable s → Reachable (selectRegion oid s).1
  | pdown {s} (rid : String) (t : HitTarget) (x : ℚ) :
      Reachable s → Reachable (pointerDown rid t x s).1
  | pmove {s} (x d : ℚ) : Reachable s → Reachable (onPointerMove x d s)
  | pup {s} : Reachable s → Reachable (onPointerUp s).1
  | click {s} (rid : String) : Reachable s → Reachable (clickOnRegion rid s).1
  | dragSel {s} (a b d : ℚ) (fid : String) :
      Reachable s → Reachable (dragSelectionUp a b d fid s).1
  | zoom {s} (px : ℚ) : Reachable s → Reachable (updateZoom px s)

lemma updRegions_map_id (l : List Region) (rid : String) (f : Region → Region)
    (hf : ∀ q : Region, q.id = rid → (f q).id = q.id) :
    (updRegions l rid f).map Region.id = l.map Region.id := by
  induction l with
  | nil => rfl
  | cons a t ih =>
    by_cases h : a.id = rid
    · simp [updRegions, h, hf a h, ih]
    · simp [updRegions, h, ih]

lemma uniqueIds_updRegions (l : List Region) (rid : String) (f : Region → Region)
    (hf : ∀ q : Region, q.id = rid → (f q).id = q.id) (h : UniqueIds l) :
    UniqueIds (updRegions l rid f) := by
  unfold UniqueIds
  rw [updRegions_map_id l rid f hf]
  exact h

lemma findRegion_updRegions (l : List Region) (rid : String) (f : Region → Region)
    (hf : ∀ q : Region, q.id = rid → (f q).id = q.id) :
    findRegion (updRegions l rid f) rid = (findRegion l rid).map f := by
  induction l with
  | nil => rfl
  | cons a t ih =>
    by_cases h : a.id = rid
    · simp [findRegion, updRegions, List.find?_cons, h, hf a h]
    · simpa [findRegion, updRegions, List.find?_cons, h] using ih

lemma findRegion_none_updRegions (l : List Region) (rid rid' : String)
    (f : Region → Region) (hf : ∀ q : Region, q.id = rid' → (f q).id = q.id)
    (h : findRegion l rid = none) :
    findRegion (updRegions l rid' f) rid = none := by
  induction l with
  | nil => rfl
  | cons a t ih =>
    simp only [findRegion, List.find?_cons] at h
    by_cases h2 : a.id = rid
    · rw [show (a.id == rid) = true by simp [h2]] at h
      exact Option.noConfusion h
    · rw [show (a.id == rid) = false by simp [h2]] at h
      simp only [findRegion, updRegions]
      rw [List.find?_cons]
      have hhead : ((if a.id == rid' then f a else a).id == rid) = false := by
        by_cases ha : a.id = rid'
        · simp [ha, hf a ha, h2]
          exact fun e => h2 (ha.trans e)
        · simp [ha, h2]
      rw [hhead]
      exact ih h

lemma mem_updRegions {l : List Region} {rid : String} {f : Region → Region} {q : Region}
    (h : q ∈ updRegions l rid f) :
    ∃ a ∈ l, q = if a.id = rid then f a else a := by
  induction l with
  | nil => simp [updRegions] at h
  | cons a t ih =>
    simp only [updRegions, List.mem_cons] at h
    cases h with
    | inl h =>
      refine ⟨a, List.mem_cons_self a t, ?_⟩
      by_cases h2 : a.id = rid <;> simp [h2] at h ⊢ <;> exact h
    | inr h =>
      obtain ⟨b, hb, hq⟩ := ih h
      exact ⟨b, List.mem_cons_of_mem a hb, hq⟩

/-- After the deselect phase, no stored region is selected (given the
coherence invariant). -/
lemma deselectPrev_all_false {s : RegionsState} (hc : SelCoherent s) :
    ∀ q ∈ (deselectPrev s).regions, q.selected = false := by
  intro q hq
  unfold deselectPrev at hq
  cases hsel : s.selectedId with
  | none =>
    rw [hsel] at hq
    by_contra hne
    have := hc q hq (by revert hne; cases q.selected <;> simp)
    rw [hsel] at this
    exact Option.noConfusion this
  | some pid =>
    rw [hsel] at hq
    obtain ⟨a, ha, rfl⟩ := mem_updRegions hq
    by_cases h2 : a.id = pid
    · simp [h2]
    · simp only [h2, if_false]
      by_contra hne
      have := hc a ha (by revert hne; cases a.selected <;> simp)
      rw [hsel] at this
      exact h2 (Option.some_injective _ this).symm

lemma countP_selected_le_one {l : List Region} {oid : Option String}
    (hn : (l.map Region.id).Nodup)
    (hc : ∀ r ∈ l, r.selected = true → oid = some r.id) :
    l.countP (fun r => r.selected) ≤ 1 := by
  induction l with
  | nil => simp
  | cons a t ih =>
    rw [List.map_cons, List.nodup_cons] at hn
    rw [List.countP_cons]
    cases hsa : a.selected with
    | false =>
      have := ih hn.2 (fun r hr h => hc r (List.mem_cons_of_mem a hr) h)
      simp [hsa]
      omega
    | true =>
      have hoid := hc a (List.mem_cons_self a t) hsa
      have hzero : t.countP (fun r => r.selected) = 0 := by
        rw [List.countP_eq_zero]
        intro q hq
        by_contra hqs
        have hqsel : q.selected = true := by revert hqs; cases q.selected <;> simp
        have := hc q (List.mem_cons_of_mem a hq) hqsel
        rw [hoid] at this
        have hid : a.id = q.id := Option.some_injective _ this
        exact hn.1 (hid ▸ List.mem_map_of_mem Region.id hq)
      simp [hzero, hsa]

lemma findRegion_some {l : List Region} {rid : String} {r : Region}
    (h : findRegion l rid = some r) : r ∈ l ∧ r.id = rid := by
  refine ⟨List.mem_of_find?_eq_some h, ?_⟩
  have := List.find?_some h
  simpa using this

lemma findRegion_eq_none_iff {l : List Region} {rid : String} :
    findRegion l rid = none ↔ ∀ q ∈ l, ¬ q.id = rid := by
  simp [findRegion, List.find?_eq_none]

lemma inv_of_eq {s s' : RegionsState} (h : Inv s) (hr : s'.regions = s.regions)
    (hs : s'.selectedId = s.selectedId) : Inv s' := by
  obtain ⟨h1, h2⟩ := h
  refine ⟨by rw [UniqueIds, hr]; exact h1, ?_⟩
  intro r hmem hsel
  rw [hs]
  exact h2 r (hr ▸ hmem) hsel

lemma inv_removeRegion (rid : String) {s : RegionsState} (h : Inv s) :
    Inv (removeRegion rid s).1 := by
  obtain ⟨h1, h2⟩ := h
  cases hfind : findRegion s.regions rid with
  | none => simp only [removeRegion, hfind]; exact ⟨h1, h2⟩
  | some r =>
    have hnod : UniqueIds (s.regions.filter (fun q => !(q.id == rid))) :=
      ((List.filter_sublist s.regions).map Region.id).nodup h1
    by_cases hsel : s.selectedId = some rid
    · simp only [removeRegion, hfind, if_pos hsel]
      refine ⟨hnod, ?_⟩
      intro q hq hqs
      exfalso
      have hmem := List.mem_filter.mp hq
      have hne : ¬ q.id = rid := by
        have := hmem.2
        simp at this
        exact this
      have := h2 q hmem.1 hqs
      rw [hsel] at this
      exact hne (Option.some_injective _ this).symm
    · simp only [removeRegion, hfind, if_neg hsel]
      refine ⟨hnod, ?_⟩
      intro q hq hqs
      exact h2 q (List.mem_filter.mp hq).1 hqs

lemma removeRegion_find_self (rid : String) (s : RegionsState) :
    findRegion (removeRegion rid s).1.regions rid = none := by
  cases hfind : findRegion s.regions rid with
  | none => simp only [removeRegion, hfind]
  | some r =>
    have : findRegion (s.regions.filter (fun q => !(q.id == rid))) rid = none := by
      rw [findRegion_eq_none_iff]
      intro q hq
      have := (List.mem_filter.mp hq).2
      simpa using this
    by_cases hsel : s.selectedId = some rid
    · simp only [removeRegion, hfind, if_pos hsel]; exact this
    · simp only [removeRegion, hfind, if_neg hsel]; exact this

lemma removeRegion_selectedId (rid : String) (s : RegionsState) :
    (removeRegion rid s).1.selectedId = s.selectedId ∨
    (removeRegion rid s).1.selectedId = none := by
  cases hfind : findRegion s.regions rid with
  | none => simp only [removeRegion, hfind]; exact Or.inl trivial
  | some r =>
    by_cases hsel : s.selectedId = some rid
    · simp only [removeRegion, hfind, if_pos hsel]; exact Or.inr trivial
    · simp only [removeRegion, hfind, if_neg hsel]; exact Or.inl trivial

lemma inv_clearRegions {s : RegionsState} : Inv (clearRegions s).1 := by
  constructor
  · exact List.nodup_nil
  · intro r hmem
    exact absurd hmem (List.not_mem_nil r)

lemma inv_updateRegion (rid : String) (opts : RegionUpdate) {s : RegionsState}
    (h : Inv s) : Inv (updateRegion rid opts s).1 := by
  obtain ⟨h1, h2⟩ := h
  cases hfind : findRegion s.regions rid with
  | none => simp only [updateRegion, hfind]; exact ⟨h1, h2⟩
  | some r =>
    simp only [updateRegion, hfind]
    refine ⟨uniqueIds_updRegions _ _ _ (fun q _ => rfl) h1, ?_⟩
    intro q hq hqs
    obtain ⟨a, ha, rfl⟩ := mem_updRegions hq
    by_cases h3 : a.id = rid
    · simp only [h3, if_pos] at hqs ⊢
      have hsel : a.selected = true := hqs
      exact h2 a ha hsel
    · simp only [h3, if_neg, if_false] at hqs ⊢
      exact h2 a ha hqs

lemma deselectPrev_map_id (s : RegionsState) :
    (deselectPrev s).regions.map Region.id = s.regions.map Region.id := by
  unfold deselectPrev
  cases s.selectedId with
  | none => rfl
  | some pid => exact updRegions_map_id _ _ _ (fun q _ => rfl)

lemma deselectPrev_selectedId (s : RegionsState) :
    (deselectPrev s).selectedId = s.selectedId := by
  unfold deselectPrev
  split <;> rfl

lemma inv_selectRegion (oid : Option String) {s : RegionsState} (h : Inv s) :
    Inv (selectRegion oid s).1 := by
  obtain ⟨h1, h2⟩ := h
  have hds : ∀ q ∈ (deselectPrev s).regions, q.selected = false :=
    deselectPrev_all_false h2
  have h1' : UniqueIds (deselectPrev s).regions := by
    rw [UniqueIds, deselectPrev_map_id]; exact h1
  cases oid with
  | none =>
    refine ⟨h1', ?_⟩
    intro q hq hqs
    rw [hds q hq] at hqs
    exact Bool.noConfusion hqs
  | some i =>
    cases hfind : findRegion (deselectPrev s).regions i with
    | none =>
      simp only [selectRegion, hfind]
      refine ⟨h1', ?_⟩
      intro q hq hqs
      rw [hds q hq] at hqs
      exact Bool.noConfusion hqs
    | some r =>
      simp only [selectRegion, hfind]
      refine ⟨uniqueIds_updRegions _ _ _ (fun q _ => rfl) h1', ?_⟩
      intro q hq hqs
      obtain ⟨a, ha, rfl⟩ := mem_updRegions hq
      by_cases h3 : a.id = i
      · simp [h3]
      · simp only [h3, if_neg, if_false] at hqs
        rw [hds a ha] at hqs
        exact Bool.noConfusion hqs

lemma mkRegion_selected (cfg : RegionsConfig) (opts : RegionOptions) :
    (mkRegion cfg opts).selected = false := rfl

lemma mkRegion_id (cfg : RegionsConfig) (opts : RegionOptions) :
    (mkRegion cfg opts).id = opts.id := rfl

lemma inv_addRegion (opts : RegionOptions) {s : RegionsState} (h : Inv s) :
    Inv (addRegion opts s).1 := by
  by_cases hany : s.regions.any (fun r => r.id == opts.id) = true
  · have hinv1 : Inv (removeRegion opts.id s).1 := inv_removeRegion opts.id h
    have hnone : findRegion (removeRegion opts.id s).1.regions opts.id = none :=
      removeRegion_find_self opts.id s
    simp only [addRegion, hany, if_pos]
    obtain ⟨hu, hc⟩ := hinv1
    constructor
    · rw [UniqueIds, List.map_append]
      rw [List.nodup_append]
      refine ⟨hu, List.nodup_singleton _, ?_⟩
      intro x hx hx2
      simp only [List.map_cons, List.map_nil, List.mem_singleton] at hx2
      rw [findRegion_eq_none_iff] at hnone
      obtain ⟨q, hq, rfl⟩ := List.mem_map.mp hx
      rw [mkRegion_id] at hx2
      exact hnone q hq hx2
    · intro q hq hqs
      rcases List.mem_append.mp hq with hq1 | hq2
      · exact hc q hq1 hqs
      · rw [List.mem_singleton] at hq2
        rw [hq2, mkRegion_selected] at hqs
        exact Bool.noConfusion hqs
  · have hnone : findRegion s.regions opts.id = none := by
      rw [findRegion_eq_none_iff]
      intro q hq hqe
      exact hany (List.any_eq_true.mpr ⟨q, hq, by simp [hqe]⟩)
    simp only [addRegion, hany, if_neg, if_false]
    obtain ⟨hu, hc⟩ := h
    constructor
    · rw [UniqueIds, List.map_append, List.nodup_append]
      refine ⟨hu, List.nodup_singleton _, ?_⟩
      intro x hx hx2
      simp only [List.map_cons, List.map_nil, List.mem_singleton] at hx2
      rw [findRegion_eq_none_iff] at hnone
      obtain ⟨q, hq, rfl⟩ := List.mem_map.mp hx
      rw [mkRegion_id] at hx2
      exact hnone q hq hx2
    · intro q hq hqs
      rcases List.mem_append.mp hq with hq1 | hq2
      · exact hc q hq1 hqs
      · rw [List.mem_singleton] at hq2
        rw [hq2, mkRegion_selected] at hqs
        exact Bool.noConfusion hqs

lemma pointerDown_fst_eq (rid : String) (t : HitTarget) (x : ℚ) (s : RegionsState) :
    (pointerDown rid t x s).1.regions = s.regions ∧
    (pointerDown rid t x s).1.selectedId = s.selectedId := by
  cases hfind : findRegion s.regions rid with
  | none => simp only [pointerDown, hfind]; exact ⟨trivial, trivial⟩
  | some r =>
    simp only [pointerDown, hfind]
    constructor <;> (repeat' split) <;> rfl

lemma inv_pointerDown (rid : String) (t : HitTarget) (x : ℚ) {s : RegionsState}
    (h : Inv s) : Inv (pointerDown rid t x s).1 :=
  inv_of_eq h (pointerDown_fst_eq rid t x s).1 (pointerDown_fst_eq rid t x s).2

lemma movedRegion_id (ds : DragState) (r : Region) (dt d : ℚ) :
    (movedRegion ds r dt d).id = r.id := by
  unfold movedRegion
  by_cases h1 : ds.type = DragType.move
  · simp [h1]
  · by_cases h2 : ds.type = DragType.resizeLeft <;> simp [h1, h2]

lemma movedRegion_selected (ds : DragState) (r : Region) (dt d : ℚ) :
    (movedRegion ds r dt d).selected = r.selected := by
  unfold movedRegion
  by_cases h1 : ds.type = DragType.move
  · simp [h1]
  · by_cases h2 : ds.type = DragType.resizeLeft <;> simp [h1, h2]

lemma inv_onPointerMove (x d : ℚ) {s : RegionsState} (h : Inv s) :
    Inv (onPointerMove x d s) := by
  obtain ⟨h1, h2⟩ := h
  cases hds : s.dragState with
  | none => simp only [onPointerMove, hds]; exact ⟨h1, h2⟩
  | some ds =>
    simp only [onPointerMove, hds]
    by_cases hc : ds.type = DragType.create
    · simp only [hc, if_pos]; exact ⟨h1, h2⟩
    · rw [if_neg hc]
      cases hfind : ds.regionId.bind (fun rid => findRegion s.regions rid) with
      | none => exact ⟨h1, h2⟩
      | some r =>
        obtain ⟨rid, hrid, hfr⟩ := Option.bind_eq_some.mp hfind
        obtain ⟨hmem, hid⟩ := findRegion_some hfr
        refine ⟨uniqueIds_updRegions _ _ _
          (fun q hq => by rw [movedRegion_id, hq]) h1, ?_⟩
        intro q hq hqs
        obtain ⟨a, ha, rfl⟩ := mem_updRegions hq
        by_cases h3 : a.id = r.id
        · simp only [h3, if_pos] at hqs ⊢
          rw [movedRegion_selected] at hqs
          rw [movedRegion_id]
          exact h2 r hmem hqs
        · simp only [h3, if_neg, if_false] at hqs ⊢
          exact h2 a ha hqs

lemma inv_onPointerUp {s : RegionsState} (h : Inv s) : Inv (onPointerUp s).1 := by
  cases hds : s.dragState with
  | none => simp only [onPointerUp, hds]; exact h
  | some ds =>
    simp only [onPointerUp, hds]
    cases hfind : ds.regionId.bind
        (fun rid => findRegion ({ s with dragState := none } : RegionsState).regions rid) with
    | none => exact inv_of_eq h rfl rfl
    | some r => exact inv_of_eq h rfl rfl

lemma inv_clickOnRegion (rid : String) {s : RegionsState} (h : Inv s) :
    Inv (clickOnRegion rid s).1 := by
  by_cases hdrag : s.dragState.isSome = true
  · simp only [clickOnRegion, hdrag, if_pos]; exact h
  · simp only [clickOnRegion, hdrag, if_neg, Bool.false_eq_true, if_false]
    have hsel : Inv (selectRegion (some rid) s).1 := inv_selectRegion (some rid) h
    cases hfind : findRegion (selectRegion (some rid) s).1.regions rid with
    | none => exact hsel
    | some r => exact hsel

lemma inv_dragSelectionUp (a b d : ℚ) (fid : String) {s : RegionsState} (h : Inv s) :
    Inv (dragSelectionUp a b d fid s).1 := by
  simp only [dragSelectionUp]
  split
  · exact inv_addRegion _ h
  · exact h

lemma inv_updateZoom (px : ℚ) {s : RegionsState} (h : Inv s) :
    Inv (updateZoom px s) := inv_of_eq h rfl rfl

/-- Every reachable state satisfies the unique-ids and selection-coherence
invariants. -/
lemma reachable_inv {s : RegionsState} (h : Reachable s) : Inv s := by
  induction h with
  | init cfg px =>
    exact ⟨List.nodup_nil, fun r hmem => absurd hmem (List.not_mem_nil r)⟩
  | add opts _ ih => exact inv_addRegion opts ih
  | remove rid _ ih => exact inv_removeRegion rid ih
  | clear _ ih => exact inv_clearRegions
  | update rid opts _ ih => exact inv_updateRegion rid opts ih
  | select oid _ ih => exact inv_selectRegion oid ih
  | pdown rid t x _ ih => exact inv_pointerDown rid t x ih
  | pmove x d _ ih => exact inv_onPointerMove x d ih
  | pup _ ih => exact inv_onPointerUp ih
  | click rid _ ih => exact inv_clickOnRegion rid ih
  | dragSel a b d fid _ ih => exact inv_dragSelectionUp a b d fid ih
  | zoom px _ ih => exact inv_updateZoom px ih

/-- Coherence plus unique ids bound the number of selected regions by one. -/
lemma inv_atMostOne {s : RegionsState} (h : Inv s) : atMostOneSelected s :=
  countP_selected_le_one h.1 h.2

lemma onPointerUp_fst_regions (s : RegionsState) :
    (onPointerUp s).1.regions = s.regions := by
  cases hds : s.dragState with
  | none => simp only [onPointerUp, hds]
  | some ds =>
    simp only [onPointerUp, hds]
    split <;> rfl

/-! ### Example fixtures used by witnesses and counterexamples -/

def exCfg : RegionsConfig :=
  { color := "rgba(100,150,250,0.25)", selectedColor := "rgba(100,150,250,0.45)",
    draggable := true, resizable := true, minLength := 1,
    dragSelectionColor := "rgba(100,150,250,0.2)" }

def exInit : RegionsState :=
  { regions := [], selectedId := none, dragState := none, config := exCfg, pxPerSec := 100 }

def exRegionR1 : Region :=
  { id := "r1", start := 5, endTime := 8, color := "c", selectedColor := "s",
    draggable := true, resizable := true, minLength := 1, selected := false }

def exDsMove : DragState :=
  { type := DragType.move, regionId := some "r1", startX := 500,
    origStart := 5, origEnd := 8 }

def exMoveState : RegionsState :=
  { regions := [exRegionR1], selectedId := none, dragState := some exDsMove,
    config := exCfg, pxPerSec := 100 }

/-! ### Claim theorems -/

/-- C2: during a move drag every pointer-move sets
newStart = clamp(originalStart + deltaTime, 0, duration - length) and
newEnd = newStart + length, so the length after the drag equals the length
before it, regardless of clamping at either boundary; the pointer-up that
ends the drag changes no bounds. -/
theorem moveDrag_formula_and_length_invariant
    (s : RegionsState) (ds : DragState) (rid : String) (r : Region)
    (currentX duration : ℚ)
    (hds : s.dragState = some ds) (hty : ds.type = DragType.move)
    (hrid : ds.regionId = some rid) (hfind : findRegion s.regions rid = some r) :
    (findRegion (onPointerMove currentX duration s).regions rid =
      some { r with
        start := (moveUpdate ds.origStart ds.origEnd
          ((currentX - ds.startX) / s.pxPerSec) duration).1,
        endTime := (moveUpdate ds.origStart ds.origEnd
          ((currentX - ds.startX) / s.pxPerSec) duration).2 })
    ∧ (∀ dt dur : ℚ,
        (moveUpdate ds.origStart ds.origEnd dt dur).1
          = max 0 (min (dur - (ds.origEnd - ds.origStart)) (ds.origStart + dt))
        ∧ (moveUpdate ds.origStart ds.origEnd dt dur).2
          = (moveUpdate ds.origStart ds.origEnd dt dur).1 + (ds.origEnd - ds.origStart)
        ∧ (moveUpdate ds.origStart ds.origEnd dt dur).2
            - (moveUpdate ds.origStart ds.origEnd dt dur).1
          = ds.origEnd - ds.origStart)
    ∧ (onPointerUp (onPointerMove currentX duration s)).1.regions
        = (onPointerMove currentX duration s).regions := by
  have hid := (findRegion_some hfind).2
  refine ⟨?_, ?_, onPointerUp_fst_regions _⟩
  · simp only [onPointerMove, hds]
    rw [if_neg (by rw [hty]; intro hcon; exact DragType.noConfusion hcon)]
    rw [hrid]
    simp only [Option.some_bind]
    rw [hfind]
    dsimp only
    rw [hid]
    rw [findRegion_updRegions _ _ _
      (fun q hq => by rw [movedRegion_id, hq]; exact hid), hfind]
    simp only [Option.map_some']
    unfold movedRegion
    rw [if_pos hty]
    simp [hid]
  · intro dt dur
    refine ⟨rfl, rfl, ?_⟩
    unfold moveUpdate
    ring

/-- C2 witness: region at [5, 8] with pxPerSec 100, moved by +200px with
duration 120, lands at [7, 10]: the length 3 is preserved. -/
theorem moveDrag_formula_witness :
    findRegion (onPointerMove 700 120 exMoveState).regions "r1" =
      some { exRegionR1 with start := 7, endTime := 10 } := by
  have h := moveDrag_formula_and_length_invariant exMoveState exDsMove "r1" exRegionR1
    700 120 rfl rfl rfl (by decide)
  refine h.1.trans ?_
  norm_num [exDsMove, exMoveState, exRegionR1, moveUpdate]

/-- C3 (amended): every resize-right pointer-move sets
end = min(duration, max(start + minLength, origEnd + deltaTime)) and leaves
start unchanged; the floor end at start + minLength is guaranteed whenever
start + minLength is at most the duration (the final min with duration wins
otherwise, so for a region with start + minLength beyond the duration the
floor is not honoured). -/
theorem resizeRight_formula_and_floor
    (s : RegionsState) (ds : DragState) (rid : String) (r : Region)
    (currentX duration : ℚ)
    (hds : s.dragState = some ds) (hty : ds.type = DragType.resizeRight)
    (hrid : ds.regionId = some rid) (hfind : findRegion s.regions rid = some r) :
    (findRegion (onPointerMove currentX duration s).regions rid =
      some { r with endTime := (resizeRightUpdate ds.origEnd
        ((currentX - ds.startX) / s.pxPerSec) r.start r.minLength duration) })
    ∧ (∀ oe dt st ml dur : ℚ,
        resizeRightUpdate oe dt st ml dur = min dur (max (st + ml) (oe + dt))
        ∧ (st + ml ≤ dur → st + ml ≤ resizeRightUpdate oe dt st ml dur)) := by
  have hid := (findRegion_some hfind).2
  constructor
  · simp only [onPointerMove, hds]
    rw [if_neg (by rw [hty]; intro hcon; exact DragType.noConfusion hcon)]
    rw [hrid]
    simp only [Option.some_bind]
    rw [hfind]
    dsimp only
    rw [hid]
    rw [findRegion_updRegions _ _ _
      (fun q hq => by rw [movedRegion_id, hq]; exact hid), hfind]
    simp only [Option.map_some']
    unfold movedRegion
    rw [if_neg (by rw [hty]; intro hcon; exact DragType.noConfusion hcon)]
    rw [if_neg (by rw [hty]; intro hcon; exact DragType.noConfusion hcon)]
    simp [hid]
  · intro oe dt st ml dur
    refine ⟨rfl, fun hle => ?_⟩
    unfold resizeRightUpdate
    exact le_min hle (le_max_left _ _)

def exRegionB : Region :=
  { id := "b", start := 10, endTime := 12, color := "c", selectedColor := "s",
    draggable := true, resizable := true, minLength := 5, selected := false }

def exDsRR : DragState :=
  { type := DragType.resizeRight, regionId := some "b", startX := 0,
    origStart := 10, origEnd := 12 }

/-- Resize-right drag fixture: region already shorter than its minLength. -/
def exRRState : RegionsState :=
  { regions := [exRegionB], selectedId := none, dragState := some exDsRR,
    config := exCfg, pxPerSec := 100 }

/-- C3 counterexample: region at start=10, end=12 with minLength=5
(externally constructed below its minLength) and duration 14; dragging the
right handle far left yields end = 14, which is strictly below
start + minLength = 15 — so end does drop below start + minLength for this
region and pointer position. -/
theorem resizeRight_minLength_floor_cex :
    (findRegion (onPointerMove (-1000) 14 exRRState).regions "b").map Region.endTime
      = some 14
    ∧ ((14 : ℚ) < 10 + 5) := by
  constructor
  · have h := (resizeRight_formula_and_floor exRRState exDsRR "b" exRegionB
      (-1000) 14 rfl rfl rfl (by decide)).1
    rw [h]
    norm_num [exDsRR, exRRState, exRegionB, resizeRightUpdate]
  · norm_num

/-- C3 witness: with duration 120 the same drag floors end at
start + minLength = 15 regardless of the pointer demanding less. -/
theorem resizeRight_formula_witness :
    findRegion (onPointerMove (-1000) 120 exRRState).regions "b" =
      some { exRegionB with endTime := 15 } := by
  have h := resizeRight_formula_and_floor exRRState exDsRR "b" exRegionB
    (-1000) 120 rfl rfl rfl (by decide)
  refine h.1.trans ?_
  norm_num [exDsRR, exRRState, exRegionB, resizeRightUpdate]

/-- C1 (amended): updateRegion merges the provided fields verbatim — the
stored region's start and end become exactly the supplied values with no
clamping (so the bounds invariant is not enforced by updateRegion; the
clamps live only in the drag pointer-move updates) — and updateRegion emits
no notification. -/
theorem updateRegion_merges_without_clamp
    (s : RegionsState) (rid : String) (opts : RegionUpdate) (r : Region)
    (hfind : findRegion s.regions rid = some r) :
    findRegion (updateRegion rid opts s).1.regions rid = some (applyUpdate opts r)
    ∧ (applyUpdate opts r).start = opts.start.getD r.start
    ∧ (applyUpdate opts r).endTime = opts.endTime.getD r.endTime
    ∧ (updateRegion rid opts s).2 = [] := by
  refine ⟨?_, rfl, rfl, by simp only [updateRegion, hfind]⟩
  simp only [updateRegion, hfind]
  rw [findRegion_updRegions s.regions rid (applyUpdate opts) (fun q _ => rfl), hfind]
  simp only [Option.map_some']

def exUpdNeg : RegionUpdate := { start := some (-3) }

/-- C1 counterexample: updateRegion assigns a negative start verbatim —
after updateRegion with start = -3 the stored region has start = -3, which
violates 0 <= start, so the claimed clamps are not applied by updateRegion. -/
theorem updateRegion_violates_bounds_cex :
    (findRegion (updateRegion "r1" exUpdNeg exMoveState).1.regions "r1").map Region.start
      = some (-3)
    ∧ ¬ ((0 : ℚ) ≤ -3) := by
  constructor
  · decide
  · norm_num

/-- C1 witness: merging start := -3 into the example region keeps it
verbatim, and no notification is emitted. -/
theorem updateRegion_merges_without_clamp_witness :
    findRegion (updateRegion "r1" exUpdNeg exMoveState).1.regions "r1"
      = some { exRegionR1 with start := -3 }
    ∧ (updateRegion "r1" exUpdNeg exMoveState).2 = [] := by
  have h := updateRegion_merges_without_clamp exMoveState "r1" exUpdNeg exRegionR1 (by decide)
  exact ⟨h.1.trans (by decide), h.2.2.2⟩

/-- C4 (amended): removeRegion and updateRegion of an unknown id are silent
no-ops — state unchanged, no notification; selectRegion of an unknown id is
NOT a no-op (see the counterexample: it deselects the current holder,
records the unknown id and emits a selected notification with null). -/
theorem remove_update_unknown_id_noop (s : RegionsState) (rid : String)
    (opts : RegionUpdate) (hfind : findRegion s.regions rid = none) :
    removeRegion rid s = (s, []) ∧ updateRegion rid opts s = (s, []) := by
  constructor
  · simp only [removeRegion, hfind]
  · simp only [updateRegion, hfind]

/-- Fixture: region r1 stored and selected. -/
def exSelState : RegionsState :=
  { regions := [{ exRegionR1 with selected := true }], selectedId := some "r1",
    dragState := none, config := exCfg, pxPerSec := 100 }

/-- C4 counterexample: selectRegion of the absent id zzz deselects the
current holder r1, records selectedId = zzz, and emits a selected
notification with null — three ways in which it is not a silent no-op. -/
theorem selectRegion_unknown_id_not_noop_cex :
    (selectRegion (some "zzz") exSelState).2 = [REvent.selected none]
    ∧ (selectRegion (some "zzz") exSelState).1.selectedId = some "zzz"
    ∧ (findRegion (selectRegion (some "zzz") exSelState).1.regions "r1").map Region.selected
        = some false := by
  decide

/-- C4 witness: removing and updating the absent id zzz leaves the example
state untouched and emits nothing. -/
theorem remove_update_unknown_id_noop_witness :
    removeRegion "zzz" exSelState = (exSelState, [])
    ∧ updateRegion "zzz" exUpdNeg exSelState = (exSelState, []) :=
  remove_update_unknown_id_noop exSelState "zzz" exUpdNeg (by decide)

/-- C10: clearRegions drops every region, resets the selection and emits
nothing at all, whereas removeRegion of the currently selected region emits
a selected notification with null followed by removed. -/
theorem clearRegions_silent_and_remove_selected_emits (s : RegionsState)
    (rid : String) (r : Region)
    (hfind : findRegion s.regions rid = some r) (hsel : s.selectedId = some rid) :
    (clearRegions s).1.regions = []
    ∧ (clearRegions s).1.selectedId = none
    ∧ (clearRegions s).2 = []
    ∧ (removeRegion rid s).2 = [REvent.selected none, REvent.removed r] := by
  refine ⟨rfl, rfl, rfl, ?_⟩
  simp only [removeRegion, hfind, if_pos hsel]

/-- C10 witness: clearing the selected-region fixture is silent, while
removing its selected region emits selected-null then removed. -/
theorem clearRegions_silent_witness :
    (clearRegions exSelState).1.regions = []
    ∧ (clearRegions exSelState).2 = []
    ∧ (removeRegion "r1" exSelState).2
        = [REvent.selected none, REvent.removed { exRegionR1 with selected := true }] := by
  have h := clearRegions_silent_and_remove_selected_emits exSelState "r1"
    { exRegionR1 with selected := true } (by decide) rfl
  exact ⟨h.1, h.2.2.1, h.2.2.2⟩

lemma any_id_eq_false {l : List Region} {rid : String}
    (h : findRegion l rid = none) : l.any (fun r => r.id == rid) = false := by
  rw [findRegion_eq_none_iff] at h
  rw [List.any_eq_false]
  intro x hx
  simp [h x hx]

lemma removeRegion_events_not_created (rid : String) (s : RegionsState) :
    ∀ ev ∈ (removeRegion rid s).2, ev.isCreated = false := by
  intro ev hev
  cases hfind : findRegion s.regions rid with
  | none =>
    simp only [removeRegion, hfind] at hev
    exact absurd hev (List.not_mem_nil ev)
  | some r =>
    by_cases hsel : s.selectedId = some rid
    · simp only [removeRegion, hfind, if_pos hsel] at hev
      rcases List.mem_cons.mp hev with h1 | h2
      · rw [h1]; rfl
      · rw [List.mem_singleton.mp h2]; rfl
    · simp only [removeRegion, hfind, if_neg hsel] at hev
      rw [List.mem_singleton.mp hev]; rfl

lemma addRegion_events_not_created (opts : RegionOptions) (s : RegionsState) :
    ∀ ev ∈ (addRegion opts s).2.2, ev.isCreated = false := by
  intro ev hev
  by_cases hany : s.regions.any (fun r => r.id == opts.id) = true
  · simp only [addRegion, hany, if_pos] at hev
    exact removeRegion_events_not_created opts.id s ev hev
  · simp only [addRegion, hany, Bool.false_eq_true, if_false] at hev
    exact absurd hev (List.not_mem_nil ev)

/-- C6: a created notification is emitted exactly when a completed
drag-selection spans at least the configured minLength (after clamping to
the track): in that case the freshly generated region is committed to the
store and created is emitted; below the threshold nothing is created or
emitted; and a direct addRegion call never emits created (its only
notifications are the removal notifications of a replaced duplicate). -/
theorem created_exactly_on_valid_drag_selection
    (s : RegionsState) (a b d : ℚ) (fid : String)
    (hfresh : findRegion s.regions fid = none) :
    (s.config.minLength ≤ min d (max a b) - max 0 (min a b) →
      (dragSelectionUp a b d fid s).2
          = [REvent.created (mkRegion s.config
              { id := fid, start := max 0 (min a b), endTime := min d (max a b),
                color := some s.config.color, draggable := some s.config.draggable,
                resizable := some s.config.resizable })]
        ∧ findRegion (dragSelectionUp a b d fid s).1.regions fid
            = some (mkRegion s.config
              { id := fid, start := max 0 (min a b), endTime := min d (max a b),
                color := some s.config.color, draggable := some s.config.draggable,
                resizable := some s.config.resizable }))
    ∧ (¬ s.config.minLength ≤ min d (max a b) - max 0 (min a b) →
        dragSelectionUp a b d fid s = (s, []))
    ∧ (∀ opts : RegionOptions, ∀ ev ∈ (addRegion opts s).2.2, ev.isCreated = false) := by
  have hany : s.regions.any (fun r => r.id == fid) = false := any_id_eq_false hfresh
  refine ⟨fun hcond => ?_, fun hcond => ?_, fun opts => addRegion_events_not_created opts s⟩
  · constructor
    · simp only [dragSelectionUp]
      rw [if_pos hcond]
      simp only [addRegion, hany, Bool.false_eq_true, if_false, List.nil_append]
    · simp only [dragSelectionUp]
      rw [if_pos hcond]
      simp only [addRegion, hany, Bool.false_eq_true, if_false]
      simp only [findRegion, List.find?_append]
      have hfresh' : s.regions.find? (fun q => q.id == fid) = none := hfresh
      rw [hfresh', Option.none_or]
      simp [mkRegion]
  · simp only [dragSelectionUp]
    rw [if_neg hcond]

/-- C6 witness: a drag-selection of span 3 with minLength 1 creates and
notifies; a zero-span drag-selection is silently discarded. -/
theorem created_exactly_witness :
    (dragSelectionUp 2 5 120 "gen" exInit).2
      = [REvent.created (mkRegion exCfg
          { id := "gen", start := 2, endTime := 5,
            color := some exCfg.color, draggable := some true,
            resizable := some true })]
    ∧ dragSelectionUp 2 2 120 "gen" exInit = (exInit, []) := by
  constructor
  · have h := (created_exactly_on_valid_drag_selection exInit 2 5 120 "gen" rfl).1
      (by norm_num [exInit, exCfg])
    refine h.1.trans ?_
    norm_num [exInit, exCfg, mkRegion]
  · exact (created_exactly_on_valid_drag_selection exInit 2 2 120 "gen" rfl).2.1
      (by norm_num [exInit, exCfg])

/-- C7 (amended): a pointer-down on a draggable region body is processed
even while a drag is already active: whatever dragState previously held, the
handler overwrites it with a fresh move state for the event's target and
emits another drag-start.  A pointer-down while dragging is therefore not
ignored. -/
theorem pointerDown_overwrites_dragState
    (s : RegionsState) (rid : String) (x : ℚ) (r : Region)
    (hfind : findRegion s.regions rid = some r)
    (hdrag : r.draggable = true) :
    (pointerDown rid HitTarget.body x s).1.dragState
      = some { type := DragType.move, regionId := some rid, startX := x,
               origStart := r.start, origEnd := r.endTime }
    ∧ (pointerDown rid HitTarget.body x s).2 = [REvent.dragStart r] := by
  have hid := (findRegion_some hfind).2
  have c1 : ¬ (r.resizable = true ∧ HitTarget.body = HitTarget.handleLeft) :=
    fun hcon => HitTarget.noConfusion hcon.2
  have c2 : ¬ (r.resizable = true ∧ HitTarget.body = HitTarget.handleRight) :=
    fun hcon => HitTarget.noConfusion hcon.2
  constructor
  · simp only [pointerDown, hfind]
    rw [if_neg c1, if_neg c2, if_pos hdrag]
    simp [hid]
  · simp only [pointerDown, hfind]
    rw [if_neg c1, if_neg c2, if_pos hdrag]
    simp

def exRegionB2 : Region :=
  { id := "b2", start := 1, endTime := 2, color := "c", selectedColor := "s",
    draggable := true, resizable := true, minLength := 1, selected := false }

/-- Fixture: a move drag of r1 is active when a pointer-down on b2 arrives. -/
def exDragActive : RegionsState :=
  { regions := [exRegionR1, exRegionB2], selectedId := none,
    dragState := some exDsMove, config := exCfg, pxPerSec := 100 }

/-- C7 counterexample: with a move drag of r1 active, a pointer-down on b2's
body is not ignored — the existing DragState is replaced by a fresh move
state for b2 (and another drag-start is emitted). -/
theorem pointerDown_while_dragging_cex :
    exDragActive.dragState = some exDsMove
    ∧ (pointerDown "b2" HitTarget.body 42 exDragActive).1.dragState
        = some { type := DragType.move, regionId := some "b2", startX := 42,
                 origStart := 1, origEnd := 2 }
    ∧ ¬ ((pointerDown "b2" HitTarget.body 42 exDragActive).1.dragState
          = some exDsMove)
    ∧ (pointerDown "b2" HitTarget.body 42 exDragActive).2
        = [REvent.dragStart exRegionB2] := by
  decide

/-- C7 witness: a pointer-down on r1's body while no other constraints hold
installs the move DragState for r1 and emits drag-start. -/
theorem pointerDown_overwrites_witness :
    (pointerDown "r1" HitTarget.body 500 exDragActive).1.dragState
      = some { type := DragType.move, regionId := some "r1", startX := 500,
               origStart := 5, origEnd := 8 }
    ∧ (pointerDown "r1" HitTarget.body 500 exDragActive).2
        = [REvent.dragStart exRegionR1] :=
  pointerDown_overwrites_dragState exDragActive "r1" 500 exRegionR1 (by decide) rfl

/-- C8 (amended): a plain click on a draggable region body (pointer-down
immediately followed by pointer-up, then the click event, with no
pointer-move) selects the region and emits clicked — but the gesture ALSO
emits drag-end and updated, because the pointer-up handler never tracks
whether any bound mutation occurred.  The full notification sequence is
drag-start, drag-end, updated, selected, clicked. -/
theorem plainClick_events (s : RegionsState) (rid : String) (x : ℚ) (r : Region)
    (hfind : findRegion s.regions rid = some r)
    (hdrag : r.draggable = true)
    (_hds : s.dragState = none) (hsel : s.selectedId = none) :
    (plainClick rid HitTarget.body x s).2
      = [REvent.dragStart r, REvent.dragEnd r, REvent.updated r,
         REvent.selected (some { r with selected := true }),
         REvent.clicked { r with selected := true }]
    ∧ findRegion (plainClick rid HitTarget.body x s).1.regions rid
        = some { r with selected := true } := by
  have hid := (findRegion_some hfind).2
  have c1 : ¬ (r.resizable = true ∧ HitTarget.body = HitTarget.handleLeft) :=
    fun hcon => HitTarget.noConfusion hcon.2
  have c2 : ¬ (r.resizable = true ∧ HitTarget.body = HitTarget.handleRight) :=
    fun hcon => HitTarget.noConfusion hcon.2
  have h1 : pointerDown rid HitTarget.body x s
      = ({ s with
             dragState := some (DragState.mk DragType.move (some rid) x r.start r.endTime) },
         [REvent.dragStart r]) := by
    simp only [pointerDown, hfind]
    rw [if_neg c1, if_neg c2, if_pos hdrag]
    simp [hid]
  have h2 : onPointerUp ({ s with
        dragState := some (DragState.mk DragType.move (some rid) x r.start r.endTime) } : RegionsState)
      = ({ s with dragState := none }, [REvent.dragEnd r, REvent.updated r]) := by
    simp only [onPointerUp, Option.some_bind]
    have : findRegion s.regions rid = some r := hfind
    rw [show findRegion ({ s with dragState := none } : RegionsState).regions rid
          = some r from hfind]
  have hfindUpd : findRegion
      (updRegions s.regions rid (fun q => { q with selected := true })) rid
      = some { r with selected := true } := by
    rw [findRegion_updRegions s.regions rid
      (fun q => { q with selected := true }) (fun q _ => rfl), hfind]
    rfl
  have h3a : selectRegion (some rid) ({ s with dragState := none } : RegionsState)
      = ({ s with
            dragState := none, selectedId := some rid,
            regions := updRegions s.regions rid (fun q => { q with selected := true }) },
         [REvent.selected (some { r with selected := true })]) := by
    simp only [selectRegion, deselectPrev, hsel]
    rw [show findRegion ({ s with dragState := none } : RegionsState).regions rid
          = some r from hfind]
  have h3 : clickOnRegion rid ({ s with dragState := none } : RegionsState)
      = ({ s with
            dragState := none, selectedId := some rid,
            regions := updRegions s.regions rid (fun q => { q with selected := true }) },
         [REvent.selected (some { r with selected := true }),
          REvent.clicked { r with selected := true }]) := by
    simp only [clickOnRegion, Option.isSome_none, Bool.false_eq_true, if_false]
    rw [h3a]
    rw [show findRegion ({ s with
          dragState := none, selectedId := some rid,
          regions := updRegions s.regions rid (fun q => { q with selected := true }) }
          : RegionsState).regions rid
        = some { r with selected := true } from hfindUpd]
    rfl
  constructor
  · show (plainClick rid HitTarget.body x s).2 = _
    simp only [plainClick, h1, h2, h3]
    rfl
  · show findRegion (plainClick rid HitTarget.body x s).1.regions rid = _
    simp only [plainClick, h1, h2, h3]
    exact hfindUpd

/-- Fixture: one draggable region, no drag active, nothing selected. -/
def exClickState : RegionsState :=
  { regions := [exRegionR1], selectedId := none, dragState := none,
    config := exCfg, pxPerSec := 100 }

/-- C8 counterexample: the plain-click gesture on the draggable region r1
emits drag-end and updated notifications, contradicting the claim that a
plain click emits neither. -/
theorem plainClick_emits_dragEnd_cex :
    REvent.dragEnd exRegionR1 ∈ (plainClick "r1" HitTarget.body 505 exClickState).2
    ∧ REvent.updated exRegionR1 ∈ (plainClick "r1" HitTarget.body 505 exClickState).2
    ∧ REvent.clicked { exRegionR1 with selected := true }
        ∈ (plainClick "r1" HitTarget.body 505 exClickState).2 := by
  decide

/-- C8 witness: the full notification sequence of a plain click on r1. -/
theorem plainClick_events_witness :
    (plainClick "r1" HitTarget.body 505 exClickState).2
      = [REvent.dragStart exRegionR1, REvent.dragEnd exRegionR1,
         REvent.updated exRegionR1,
         REvent.selected (some { exRegionR1 with selected := true }),
         REvent.clicked { exRegionR1 with selected := true }] :=
  (plainClick_events exClickState "r1" 505 exRegionR1 (by decide) rfl rfl rfl).1

/-- C5: in every reachable state at most one region is selected; the
deselect phase of selectRegion (its only intermediate state) also has at
most one (in fact zero) selected regions, so no intermediate state shows
two selections; selectRegion always emits exactly one selected notification
whose payload is the new state's region for the requested id (or null when
deselecting or when the id is absent); and after selecting an id every
stored region carrying that id is selected — in particular re-selecting the
already selected id never leaves it deselected. -/
theorem selection_invariant_and_select_behavior
    (s : RegionsState) (h : Reachable s) (oid : Option String) :
    atMostOneSelected s
    ∧ atMostOneSelected { s with regions := (deselectPrev s).regions }
    ∧ atMostOneSelected (selectRegion oid s).1
    ∧ (selectRegion oid s).2
        = [REvent.selected
            (oid.bind (fun i => findRegion (selectRegion oid s).1.regions i))]
    ∧ (∀ i, oid = some i →
        ∀ q ∈ (selectRegion oid s).1.regions, q.id = i → q.selected = true) := by
  have hinv := reachable_inv h
  refine ⟨inv_atMostOne hinv, ?_, inv_atMostOne (inv_selectRegion oid hinv), ?_, ?_⟩
  · have hds := deselectPrev_all_false hinv.2
    unfold atMostOneSelected
    have hz : (deselectPrev s).regions.countP (fun r => r.selected) = 0 := by
      rw [List.countP_eq_zero]
      intro q hq
      simp [hds q hq]
    simp only [hz]
    omega
  · cases oid with
    | none => rfl
    | some i =>
      cases hfind : findRegion (deselectPrev s).regions i with
      | none =>
        simp only [selectRegion, hfind, Option.some_bind]
      | some r =>
        simp only [selectRegion, hfind, Option.some_bind]
        rw [findRegion_updRegions ({ deselectPrev s with selectedId := some i }
              : RegionsState).regions i (fun q => { q with selected := true })
              (fun q _ => rfl)]
        rw [show findRegion ({ deselectPrev s with selectedId := some i }
              : RegionsState).regions i = some r from hfind]
        rfl
  · intro i hoid q hq hqid
    subst hoid
    cases hfind : findRegion (deselectPrev s).regions i with
    | none =>
      simp only [selectRegion, hfind] at hq
      rw [findRegion_eq_none_iff] at hfind
      exact absurd hqid (hfind q hq)
    | some r =>
      simp only [selectRegion, hfind] at hq
      obtain ⟨a, ha, rfl⟩ := mem_updRegions hq
      by_cases h3 : a.id = i
      · simp [h3]
      · simp only [h3, if_neg, if_false] at hqid ⊢

def exOptsA : RegionOptions := { id := "a", start := 1, endTime := 2 }

/-- A reachable state: one region added to a fresh layer. -/
def exAdded : RegionsState := (addRegion exOptsA exInit).1

/-- C5 witness: in the reachable one-region state, selecting region a keeps
at most one region selected, emits exactly the selected notification with
the updated region, and leaves region a with its selected flag set. -/
theorem selection_invariant_witness :
    atMostOneSelected (selectRegion (some "a") exAdded).1
    ∧ (selectRegion (some "a") exAdded).2
        = [REvent.selected (some { mkRegion exCfg exOptsA with selected := true })]
    ∧ (∀ q ∈ (selectRegion (some "a") exAdded).1.regions,
        q.id = "a" → q.selected = true) := by
  have h := selection_invariant_and_select_behavior exAdded
    (Reachable.add exOptsA (Reachable.init exCfg 100)) (some "a")
  refine ⟨h.2.2.1, ?_, fun q hq hqid => h.2.2.2.2 "a" rfl q hq hqid⟩
  refine h.2.2.2.1.trans ?_
  decide

/-! ### ScrollManager lemmas -/

lemma followCursor_preserves (x : ℚ) (p : Bool) (s : ScrollState) :
    (followCursor x p s).clientWidth = s.clientWidth
    ∧ (followCursor x p s).autoCenter = s.autoCenter
    ∧ (followCursor x p s).isUserScrolling = s.isUserScrolling := by
  refine ⟨?_, ?_, ?_⟩ <;>
    (simp only [followCursor, setScrollLeft]; repeat' split) <;> rfl

lemma followCursor_user (x : ℚ) (p : Bool) (s : ScrollState)
    (h : s.isUserScrolling = true) :
    (followCursor x p s).scrollLeft = s.scrollLeft := by
  unfold followCursor
  rw [if_pos (Or.inr h)]

lemma followCursor_center_small (x : ℚ) (s : ScrollState)
    (hc : s.autoCenter = true) (hu : s.isUserScrolling = false)
    (hsmall : |x - s.clientWidth / 2 - s.scrollLeft| < 1/2) :
    (followCursor x true s).scrollLeft = s.scrollLeft := by
  unfold followCursor
  rw [if_neg (by simp [hu])]
  simp only [hc, if_pos]
  rw [if_pos hsmall]

lemma followCursor_center_step (x : ℚ) (s : ScrollState)
    (hc : s.autoCenter = true) (hu : s.isUserScrolling = false)
    (hbig : ¬ |x - s.clientWidth / 2 - s.scrollLeft| < 1/2) :
    (followCursor x true s).scrollLeft
      = s.scrollLeft + (x - s.clientWidth / 2 - s.scrollLeft) * (12/100) := by
  unfold followCursor setScrollLeft
  rw [if_neg (by simp [hu])]
  simp only [hc, if_pos]
  rw [if_neg hbig]

lemma iterFC_preserves (x : ℚ) : ∀ (n : ℕ) (s : ScrollState),
    (iterFC x n s).clientWidth = s.clientWidth
    ∧ (iterFC x n s).autoCenter = s.autoCenter
    ∧ (iterFC x n s).isUserScrolling = s.isUserScrolling := by
  intro n
  induction n with
  | zero => exact fun s => ⟨rfl, rfl, rfl⟩
  | succ n ih =>
    intro s
    have h1 := followCursor_preserves x true s
    have h2 := ih (followCursor x true s)
    exact ⟨h2.1.trans h1.1, h2.2.1.trans h1.2.1, h2.2.2.trans h1.2.2⟩

lemma iterFC_succ (x : ℚ) : ∀ (n : ℕ) (s : ScrollState),
    iterFC x (n + 1) s = followCursor x true (iterFC x n s) := by
  intro n
  induction n with
  | zero => exact fun s => rfl
  | succ n ih => exact fun s => ih (followCursor x true s)

/-- Each auto-center lerp step either leaves the offset unchanged (within
the snap tolerance) or multiplies the remaining distance by 22/25. -/
lemma center_progress (x : ℚ) : ∀ (n : ℕ) (s : ScrollState),
    s.autoCenter = true → s.isUserScrolling = false →
    |x - s.clientWidth / 2 - (iterFC x n s).scrollLeft|
        ≤ (22/25) ^ n * |x - s.clientWidth / 2 - s.scrollLeft|
    ∨ |x - s.clientWidth / 2 - (iterFC x n s).scrollLeft| < 1/2 := by
  intro n
  induction n with
  | zero =>
    intro s _ _
    left
    rw [pow_zero, one_mul]
    exact le_of_eq rfl
  | succ n ih =>
    intro s hc hu
    have hstep := followCursor_preserves x true s
    have hrec : iterFC x (n + 1) s = iterFC x n (followCursor x true s) := rfl
    have ih2 := ih (followCursor x true s) (hstep.2.1.trans hc) (hstep.2.2.trans hu)
    rw [hstep.1] at ih2
    by_cases hsmall : |x - s.clientWidth / 2 - s.scrollLeft| < 1/2
    · have heq : (followCursor x true s).scrollLeft = s.scrollLeft :=
        followCursor_center_small x s hc hu hsmall
      rw [heq] at ih2
      right
      rw [hrec]
      rcases ih2 with hle | hlt
      · refine lt_of_le_of_lt hle ?_
        have hp1 : (22/25 : ℚ) ^ n ≤ 1 :=
          pow_le_one₀ (by norm_num) (by norm_num)
        have habs : (0:ℚ) ≤ |x - s.clientWidth / 2 - s.scrollLeft| := abs_nonneg _
        nlinarith
      · exact hlt
    · have heq : (followCursor x true s).scrollLeft
          = s.scrollLeft + (x - s.clientWidth / 2 - s.scrollLeft) * (12/100) :=
        followCursor_center_step x s hc hu hsmall
      have hd : x - s.clientWidth / 2 - (followCursor x true s).scrollLeft
          = (22/25) * (x - s.clientWidth / 2 - s.scrollLeft) := by
        rw [heq]; ring
      rw [hd] at ih2
      rw [hrec]
      rcases ih2 with hle | hlt
      · left
        refine le_trans hle (le_of_eq ?_)
        rw [abs_mul]
        rw [show |(22/25 : ℚ)| = 22/25 from abs_of_pos (by norm_num)]
        ring
      · right; exact hlt

lemma center_absorb (x : ℚ) (n : ℕ) (s : ScrollState)
    (hc : s.autoCenter = true) (hu : s.isUserScrolling = false)
    (hsmall : |x - s.clientWidth / 2 - (iterFC x n s).scrollLeft| < 1/2) :
    (iterFC x (n + 1) s).scrollLeft = (iterFC x n s).scrollLeft := by
  rw [iterFC_succ]
  have hpres := iterFC_preserves x n s
  refine followCursor_center_small x (iterFC x n s)
    (hpres.2.1.trans hc) (hpres.2.2.trans hu) ?_
  rw [hpres.1]
  exact hsmall

/-- Repeated auto-center lerp calls reach the snap tolerance of the
centered offset in finitely many frames and then stop moving. -/
lemma center_converges (x : ℚ) (s : ScrollState)
    (hc : s.autoCenter = true) (hu : s.isUserScrolling = false) :
    ∃ N : ℕ, ∀ n, N ≤ n →
      |x - s.clientWidth / 2 - (iterFC x n s).scrollLeft| < 1/2
      ∧ (iterFC x (n + 1) s).scrollLeft = (iterFC x n s).scrollLeft := by
  have hD0 : (0:ℚ) ≤ |x - s.clientWidth / 2 - s.scrollLeft| := abs_nonneg _
  obtain ⟨N, hN⟩ : ∃ N : ℕ,
      (22/25 : ℚ) ^ N * |x - s.clientWidth / 2 - s.scrollLeft| < 1/2 := by
    obtain ⟨N, hN⟩ := exists_pow_lt_of_lt_one
      (show (0:ℚ) < (1/2) / (|x - s.clientWidth / 2 - s.scrollLeft| + 1) by positivity)
      (show (22/25 : ℚ) < 1 by norm_num)
    refine ⟨N, ?_⟩
    have hpn : (0:ℚ) ≤ (22/25 : ℚ) ^ N := pow_nonneg (by norm_num) N
    have h2 : (22/25 : ℚ) ^ N * (|x - s.clientWidth / 2 - s.scrollLeft| + 1)
        < ((1/2) / (|x - s.clientWidth / 2 - s.scrollLeft| + 1))
            * (|x - s.clientWidth / 2 - s.scrollLeft| + 1) :=
      mul_lt_mul_of_pos_right hN (by linarith)
    rw [div_mul_cancel₀ _ (show |x - s.clientWidth / 2 - s.scrollLeft| + 1 ≠ 0
      by intro hz; linarith)] at h2
    nlinarith
  have hdN : |x - s.clientWidth / 2 - (iterFC x N s).scrollLeft| < 1/2 := by
    rcases center_progress x N s hc hu with hle | hlt
    · exact lt_of_le_of_lt hle hN
    · exact hlt
  have hall : ∀ k : ℕ,
      |x - s.clientWidth / 2 - (iterFC x (N + k) s).scrollLeft| < 1/2 := by
    intro k
    induction k with
    | zero => simpa using hdN
    | succ k ih =>
      have heq := center_absorb x (N + k) s hc hu ih
      rw [show N + (k + 1) = (N + k) + 1 from rfl, heq]
      exact ih
  refine ⟨N, fun n hn => ?_⟩
  obtain ⟨k, rfl⟩ := Nat.exists_eq_add_of_le hn
  exact ⟨hall k, center_absorb x (N + k) s hc hu (hall k)⟩

lemma scrollStep_keeps_user (e : ScrollEvent) (s : ScrollState)
    (hne : ¬ e = ScrollEvent.timer) (h : s.isUserScrolling = true) :
    (scrollStep e s).isUserScrolling = true := by
  cases e with
  | follow x p =>
    show (followCursor x p s).isUserScrolling = true
    rw [(followCursor_preserves x p s).2.2]
    exact h
  | userScroll v =>
    show (onUserScroll v s).isUserScrolling = true
    unfold onUserScroll
    split
    · exact h
    · rfl
  | timer => exact absurd rfl hne

lemma runScroll_keeps_user (evts : List ScrollEvent) :
    ∀ s : ScrollState, ScrollEvent.timer ∉ evts → s.isUserScrolling = true →
    (runScroll evts s).isUserScrolling = true := by
  induction evts with
  | nil => exact fun s _ h => h
  | cons e t ih =>
    intro s hno h
    have hne : ¬ e = ScrollEvent.timer := fun hcon =>
      hno (hcon ▸ List.mem_cons_self e t)
    have hnt : ScrollEvent.timer ∉ t := fun hmem => hno (List.mem_cons_of_mem e hmem)
    exact ih (scrollStep e s) hnt (scrollStep_keeps_user e s hne h)

/-- C9: while playback is active, auto-center is on and no user-scroll
cooldown is pending, each followCursor call moves the scroll offset by the
fixed fraction 12/100 of the remaining distance to the centered offset
cursorX - viewportWidth/2, leaves it unchanged once within the snap
tolerance 1/2, and iterating converges: after finitely many frames the
offset stays within the tolerance and stops changing.  And after a
non-programmatic scroll starts the cooldown, as long as the cooldown timer
has not fired, followCursor never modifies the scroll offset, whatever
events arrive in between. -/
theorem followCursor_lerp_converges_and_cooldown :
    (∀ (s : ScrollState) (x : ℚ), s.autoCenter = true → s.isUserScrolling = false →
      (¬ |x - s.clientWidth / 2 - s.scrollLeft| < 1/2 →
          (followCursor x true s).scrollLeft
            = s.scrollLeft + (x - s.clientWidth / 2 - s.scrollLeft) * (12/100))
      ∧ (|x - s.clientWidth / 2 - s.scrollLeft| < 1/2 →
          (followCursor x true s).scrollLeft = s.scrollLeft)
      ∧ (∃ N : ℕ, ∀ n, N ≤ n →
          |x - s.clientWidth / 2 - (iterFC x n s).scrollLeft| < 1/2
          ∧ (iterFC x (n + 1) s).scrollLeft = (iterFC x n s).scrollLeft))
    ∧ (∀ (s : ScrollState) (v : ℚ), s.isProgrammaticScroll = false →
        (onUserScroll v s).isUserScrolling = true)
    ∧ (∀ (s : ScrollState) (evts : List ScrollEvent) (x : ℚ) (p : Bool),
        s.isUserScrolling = true → ScrollEvent.timer ∉ evts →
        (followCursor x p (runScroll evts s)).scrollLeft
          = (runScroll evts s).scrollLeft) := by
  refine ⟨?_, ?_, ?_⟩
  · intro s x hc hu
    exact ⟨fun hbig => followCursor_center_step x s hc hu hbig,
           fun hsmall => followCursor_center_small x s hc hu hsmall,
           center_converges x s hc hu⟩
  · intro s v hp
    unfold onUserScroll
    rw [if_neg (by rw [hp]; exact Bool.false_ne_true)]
  · intro s evts x p hu hno
    exact followCursor_user x p (runScroll evts s) (runScroll_keeps_user evts s hno hu)

/-- Follower fixture: playback on, auto-center on, no pending cooldown. -/
def exFollowState : ScrollState :=
  { autoScroll := true, autoCenter := true, isUserScrolling := false,
    isProgrammaticScroll := false, lerpTarget := none,
    scrollLeft := 0, clientWidth := 800 }

/-- Follower fixture inside the user-scroll cooldown. -/
def exCoolState : ScrollState :=
  { autoScroll := true, autoCenter := true, isUserScrolling := true,
    isProgrammaticScroll := false, lerpTarget := none,
    scrollLeft := 7, clientWidth := 800 }

/-- C9 witness: the spec scenario — cursor at 5000 with viewport 800 makes
one lerp step from offset 0 toward 4600, moving to 552; and during a
cooldown followCursor leaves the offset at 7. -/
theorem followCursor_lerp_witness :
    (followCursor 5000 true exFollowState).scrollLeft = 552
    ∧ (followCursor 5000 true (runScroll [] exCoolState)).scrollLeft
        = (runScroll [] exCoolState).scrollLeft := by
  have h := followCursor_lerp_converges_and_cooldown
  constructor
  · have h1 := (h.1 exFollowState 5000 rfl rfl).1 (by norm_num [exFollowState])
    rw [h1]
    norm_num [exFollowState]
  · exact h.2.2 exCoolState [] 5000 true rfl (by simp)

end SpectroViewer
